import Mathlib

/-!
# Verification of the sandboxed snippet evaluator of `interprep`

The repository's only non-trivial logic is `evaluateCode` in
`src/theme.config.jsx` (lines 34-68): it receives a snippet string,
textually rewrites `console.log(` / `console.error(` occurrences to
`customConsole.log(` / `customConsole.error(` with the global regex
`/console\.(log|error)\(/g` (line 58), wraps the rewritten text in
`return (async () => { ... })();`, builds it with `new Function` and runs
it with a `customConsole` object whose `log` hook pushes
`args.map(arg => typeof arg === 'object' ? JSON.stringify(arg) : String(arg)).join(' ')`
onto a fresh `logs` array (lines 40-45) and whose `error` hook pushes the
same line prefixed by `Error: ` (lines 47-51).  On normal completion it
returns `logs.join('\n')` (line 63); any exception is caught and turned
into the template string `Error: ${error.message}` (lines 64-66).

This file shallowly embeds that evaluator.  The textual rewrite is
embedded exactly, as a character-list scanner equivalent to the regex.
Snippet execution (performed in JavaScript by `new Function`) is embedded
by a small statement language covering the behaviours the specification
talks about: console calls (written either literally, so the rewrite hits
them, or through an alias/computed access, which the regex does not
match), synchronous throws, awaited rejections, awaited timer delays, and
reads/writes of shared mutable external state.  JavaScript numbers are
modelled as integers; this loses floating point but no claim concerns it.
-/

namespace InterPrep

/-- A JavaScript value, as far as the evaluator's claims need:
primitive strings, (integer) numbers, booleans, `null`, `undefined`,
`Error` instances (carrying their `message`), and plain objects given by
their enumerable string-keyed fields. -/
inductive JSVal where
  | str (s : String)
  | num (n : Int)
  | bool (b : Bool)
  | null
  | undefined
  | errObj (msg : String)
  | obj (fields : List (String × JSVal))

/-- The test `typeof v === 'object'` (true for plain objects, `Error`
instances and, notoriously, `null`). -/
def typeofObject : JSVal → Bool
  | .null => true
  | .errObj _ => true
  | .obj _ => true
  | _ => false

/-- The JavaScript `String(v)` conversion (also what `${v}` interpolation
uses) for the modelled values. -/
def jsString : JSVal → String
  | .str s => s
  | .num n => toString n
  | .bool b => if b then "true" else "false"
  | .null => "null"
  | .undefined => "undefined"
  | .errObj m => "Error: " ++ m
  | .obj _ => "[object Object]"

mutual

/-- The builtin `JSON.stringify(v)` on the modelled values (no escaping
inside string data; `Error` instances have no enumerable own properties,
hence `{}`). -/
def jsonStringify : JSVal → String
  | .str s => "\"" ++ s ++ "\""
  | .num n => toString n
  | .bool b => if b then "true" else "false"
  | .null => "null"
  | .undefined => "undefined"
  | .errObj _ => "\x7b\x7d"
  | .obj fields => "\x7b" ++ String.intercalate "," (jsonFieldStrings fields) ++ "\x7d"

/-- The `"key":value` pieces of `JSON.stringify` on an object. -/
def jsonFieldStrings : List (String × JSVal) → List String
  | [] => []
  | (k, v) :: rest => ("\"" ++ k ++ "\":" ++ jsonStringify v) :: jsonFieldStrings rest

end

/-- The per-argument stringification both hooks use (line 43 and line 49):
`typeof arg === 'object' ? JSON.stringify(arg) : String(arg)`. -/
def stringifyArg (v : JSVal) : String :=
  if typeofObject v then jsonStringify v else jsString v

/-- The transcript line a `customConsole.log(...)` call pushes (lines
42-44): the stringified arguments joined by a single space. -/
def stringifyArgs (args : List JSVal) : String :=
  String.intercalate " " (args.map stringifyArg)

/-- Reading `v.message` in the catch block (line 65).  `some mv` is the
property value (`undefined` when absent); `none` models the `TypeError`
thrown by property access on `null` or `undefined`. -/
def getMessageProp : JSVal → Option JSVal
  | .null => none
  | .undefined => none
  | .errObj m => some (.str m)
  | .obj fields => some ((fields.lookup "message").getD .undefined)
  | _ => some .undefined

/-- Whether a console call occurs in the snippet text in the literal form
`console.log(` / `console.error(` (which the regex of line 58 matches and
redirects to `customConsole`), or through an alias or computed member
access such as `const c = console; c.log(...)` (which the regex does not
match, so the call still reaches the real console). -/
inductive CallForm where
  | direct
  | aliased

/-- Which hook of the console a call addresses. -/
inductive ChanKind where
  | logK
  | errK

/-- A call that escaped the rewrite and reached the real console: the
channel it used and the arguments it received. -/
abbrev RealCall := ChanKind × List JSVal

/-- One statement of the (rewritten) snippet body, covering the behaviours
the specification describes: console calls, a synchronous `throw v`, an
awaited rejected promise (`await Promise.reject(v)`), an awaited timer
delay (`await new Promise(r => setTimeout(r, ms))`), and reads/writes of a
shared mutable external cell (an ambient global the snippet may touch). -/
inductive Stmt where
  | call (form : CallForm) (kind : ChanKind) (args : List JSVal)
  | throwJS (v : JSVal)
  | awaitRejected (v : JSVal)
  | awaitDelayThen (ms : Nat)
  | readStateLog
  | writeState (n : Int)

/-- What executing the snippet body produced: the `logs` array the hooks
filled (`transcript`), the calls that escaped to the real console
(`ambient`), the value thrown / rejected with if execution aborted
(`thrown`), the total awaited timer time (`elapsed`), and the final value
of the shared external cell (`world`). -/
structure RunResult where
  transcript : List String
  ambient : List RealCall
  thrown : Option JSVal
  elapsed : Nat
  world : Int

/-- Sequential execution of the rewritten snippet body, started with the
shared external cell holding `w`.  Direct console calls were rewritten to
`customConsole` calls, so they push onto the transcript exactly as the
hooks of lines 40-51 do; aliased calls reach the real console; a throw or
an awaited rejection aborts the rest of the body. -/
def runStmts : List Stmt → Int → RunResult
  | [], w => ⟨[], [], none, 0, w⟩
  | .call .direct .logK args :: rest, w =>
      let r := runStmts rest w
      { r with transcript := stringifyArgs args :: r.transcript }
  | .call .direct .errK args :: rest, w =>
      let r := runStmts rest w
      { r with transcript := ("Error: " ++ stringifyArgs args) :: r.transcript }
  | .call .aliased k args :: rest, w =>
      let r := runStmts rest w
      { r with ambient := (k, args) :: r.ambient }
  | .throwJS v :: _, w => ⟨[], [], some v, 0, w⟩
  | .awaitRejected v :: _, w => ⟨[], [], some v, 0, w⟩
  | .awaitDelayThen ms :: rest, w =>
      let r := runStmts rest w
      { r with elapsed := ms + r.elapsed }
  | .readStateLog :: rest, w =>
      let r := runStmts rest w
      { r with transcript := jsString (.num w) :: r.transcript }
  | .writeState n :: rest, _ => runStmts rest n

/-- What `new Function('customConsole', transformedCode)` denotes for a
given snippet text: either a runnable body (a statement list), or a
construction-time `SyntaxError` carrying message `msg` when the rewritten
text does not parse. -/
inductive Snippet where
  | program (stmts : List Stmt)
  | syntaxError (msg : String)

/-- How the promise returned by `evaluateCode` settles: with a result
string, or rejected because the catch block itself threw a `TypeError`
while reading `.message` of the recorded thrown value (which happens
exactly when that value is `null` or `undefined`). -/
inductive Settled where
  | resolved (result : String)
  | rejectedTypeError (thrownValue : JSVal)

/-- The observable outcome of one `evaluateCode` call: how its promise
settled, after how much awaited timer time, which calls escaped to the
real console, and the final value of the shared external cell. -/
structure EvalOutcome where
  settled : Settled
  elapsed : Nat
  ambient : List RealCall
  world : Int

/-- The evaluator `evaluateCode` (src/theme.config.jsx lines 34-68), run with the shared
external cell holding `w`.  A `SyntaxError` from `new Function` is caught
by the same `catch` (line 64) and yields `Error: <message>`.  On normal
completion the result is `logs.join('\n')` (line 63).  On a throw the
catch evaluates the template `` `Error: ${error.message}` `` (line 65):
reading `.message` of `null`/`undefined` itself throws, so the async
function's promise rejects; otherwise the result is `Error: ` followed by
the `String()` conversion of the property value. -/
def evaluateCode : Snippet → Int → EvalOutcome
  | .syntaxError msg, w => ⟨.resolved ("Error: " ++ msg), 0, [], w⟩
  | .program stmts, w =>
      let r := runStmts stmts w
      match r.thrown with
      | none => ⟨.resolved (String.intercalate "\n" r.transcript), r.elapsed, r.ambient, r.world⟩
      | some v =>
          match getMessageProp v with
          | some mv => ⟨.resolved ("Error: " ++ jsString mv), r.elapsed, r.ambient, r.world⟩
          | none => ⟨.rejectedTypeError v, r.elapsed, r.ambient, r.world⟩

/-- The character-level rewrite performed by
`codeToEval.replace(/console\.(log|error)\(/g, 'customConsole.$1(')`
(line 58): scan left to right; at the literal text `console.log(` or
`console.error(` emit the `customConsole` form and continue after the
match; otherwise copy the character. -/
def rewriteChars : List Char → List Char
  | 'c' :: 'o' :: 'n' :: 's' :: 'o' :: 'l' :: 'e' :: '.' :: 'l' :: 'o' :: 'g' :: '(' :: rest =>
      "customConsole.log(".data ++ rewriteChars rest
  | 'c' :: 'o' :: 'n' :: 's' :: 'o' :: 'l' :: 'e' :: '.' :: 'e' :: 'r' :: 'r' :: 'o' :: 'r' :: '(' :: rest =>
      "customConsole.error(".data ++ rewriteChars rest
  | c :: rest => c :: rewriteChars rest
  | [] => []

/-- The textual rewrite of line 58 on snippet strings. -/
def rewriteConsoleCalls (codeToEval : String) : String :=
  ⟨rewriteChars codeToEval.data⟩

/-- The full `transformedCode` template string of lines 56-60: the
rewritten snippet spliced into `return (async () => { ... })();`. -/
def transformedCode (codeToEval : String) : String :=
  "\n        return (async () => \x7b\n          "
    ++ rewriteConsoleCalls codeToEval
    ++ "\n        \x7d)();\n      "

/-- Extracts `S` from a text of the exact shape `customConsole.log("S")`
(how the single rewritten call of claim C10's example reads). -/
def logCallArg (t : String) : Option String :=
  let p := ("customConsole.log(" ++ "\"").data
  let q := ("\"" ++ ")").data
  if p.isPrefixOf t.data then
    let rest := t.data.drop p.length
    if q.isSuffixOf rest then some ⟨rest.take (rest.length - q.length)⟩ else none
  else none

/-- A primitive (non-object) value: anything except a plain object or an
`Error` instance.  (For all of these, and also for `null`, the hooks'
stringification agrees with the plain `String()` conversion.) -/
def JSVal.isPrim : JSVal → Bool
  | .obj _ => false
  | .errObj _ => false
  | _ => true

/-- A statement whose console calls (if any) are written in the literal
`console.log(` / `console.error(` form that the line-58 regex matches. -/
def directCallsOnly : Stmt → Bool
  | .call .aliased _ _ => false
  | _ => true

/-- A statement that neither reads nor writes the shared mutable external
cell. -/
def statelessStmt : Stmt → Bool
  | .readStateLog => false
  | .writeState _ => false
  | _ => true

/-- A snippet that neither reads nor writes shared mutable external
state. -/
def statelessSnippet : Snippet → Bool
  | .syntaxError _ => true
  | .program stmts => stmts.all statelessStmt

/-- A value with no own `message` property (for objects: no `message`
field; `Error` instances always carry one). -/
def noMessageField : JSVal → Bool
  | .errObj _ => false
  | .obj fields => (fields.lookup "message").isNone
  | _ => true

/-- The value the snippet's execution aborted with, if any. -/
def thrownValueOf : Snippet → Int → Option JSVal
  | .syntaxError _, _ => none
  | .program stmts, w => (runStmts stmts w).thrown

/-- The transcript the hooks accumulated during the snippet's execution. -/
def transcriptOf : Snippet → Int → List String
  | .syntaxError _, _ => []
  | .program stmts, w => (runStmts stmts w).transcript

/-! ## Helper lemmas -/

/-- Running a concatenated body whose first part does not abort runs the
two parts in sequence, threading the shared cell and concatenating
transcripts, escaped calls and awaited time. -/
theorem runStmts_append (a b : List Stmt) (w : Int)
    (h : (runStmts a w).thrown = none) :
    runStmts (a ++ b) w =
      ⟨(runStmts a w).transcript ++ (runStmts b (runStmts a w).world).transcript,
       (runStmts a w).ambient ++ (runStmts b (runStmts a w).world).ambient,
       (runStmts b (runStmts a w).world).thrown,
       (runStmts a w).elapsed + (runStmts b (runStmts a w).world).elapsed,
       (runStmts b (runStmts a w).world).world⟩ := by
  induction a generalizing w with
  | nil => simp [runStmts]
  | cons s rest ih =>
    cases s with
    | call form kind args =>
      cases form with
      | direct =>
        cases kind with
        | logK =>
          simp only [runStmts, List.append_eq] at h ⊢
          rw [ih _ h]
          simp
        | errK =>
          simp only [runStmts, List.append_eq] at h ⊢
          rw [ih _ h]
          simp
      | aliased =>
        simp only [runStmts, List.append_eq] at h ⊢
        rw [ih _ h]
        simp
    | throwJS v => simp [runStmts] at h
    | awaitRejected v => simp [runStmts] at h
    | awaitDelayThen ms =>
      simp only [runStmts, List.append_eq] at h ⊢
      rw [ih _ h]
      simp [Nat.add_assoc]
    
    | readStateLog =>
      simp only [runStmts, List.append_eq] at h ⊢
      rw [ih _ h]
      simp
    | writeState n =>
      simp only [runStmts, List.append_eq] at h ⊢
      rw [ih _ h]

/-- On primitive (non-object) values the hooks' stringification is the
plain `String()` conversion (for `null` the two branches agree). -/
theorem stringifyArg_prim (v : JSVal) (h : v.isPrim = true) :
    stringifyArg v = jsString v := by
  cases v <;> simp_all [JSVal.isPrim, stringifyArg, typeofObject, jsonStringify, jsString]

/-- A body consisting only of direct `console.log` calls runs to
completion, producing one transcript line per call and nothing else. -/
theorem runStmts_map_log (L : List (List JSVal)) (w : Int) :
    runStmts (L.map fun args => Stmt.call .direct .logK args) w
      = ⟨L.map stringifyArgs, [], none, 0, w⟩ := by
  induction L with
  | nil => simp [runStmts]
  | cons args L ih => simp [runStmts, ih]

/-- When every console call of the body is in the direct literal form, no
call escapes to the real console. -/
theorem runStmts_ambient_nil (stmts : List Stmt) (w : Int)
    (h : stmts.all directCallsOnly = true) :
    (runStmts stmts w).ambient = [] := by
  induction stmts generalizing w with
  | nil => simp [runStmts]
  | cons s rest ih =>
    simp only [List.all_cons, Bool.and_eq_true] at h
    cases s with
    | call form kind args =>
      cases form with
      | direct => cases kind <;> simp [runStmts, ih _ h.2]
      | aliased => simp [directCallsOnly] at h
    | throwJS v => simp [runStmts]
    | awaitRejected v => simp [runStmts]
    | awaitDelayThen ms => simp [runStmts, ih _ h.2]
    | readStateLog => simp [runStmts, ih _ h.2]
    | writeState n => simp [runStmts, ih _ h.2]

/-- A body that neither reads nor writes the shared external cell leaves
it at its initial value. -/
theorem runStmts_world_stateless (stmts : List Stmt) (w : Int)
    (h : stmts.all statelessStmt = true) :
    (runStmts stmts w).world = w := by
  induction stmts generalizing w with
  | nil => simp [runStmts]
  | cons s rest ih =>
    simp only [List.all_cons, Bool.and_eq_true] at h
    cases s with
    | call form kind args =>
      cases form with
      | direct => cases kind <;> simp [runStmts, ih _ h.2]
      | aliased => simp [runStmts, ih _ h.2]
    | throwJS v => simp [runStmts]
    | awaitRejected v => simp [runStmts]
    | awaitDelayThen ms => simp [runStmts, ih _ h.2]
    | readStateLog => simp [statelessStmt] at h
    | writeState n => simp [statelessStmt] at h

/-- The evaluator only forwards the shared external cell produced by the
snippet's execution. -/
theorem evaluateCode_world (stmts : List Stmt) (w : Int) :
    (evaluateCode (.program stmts) w).world = (runStmts stmts w).world := by
  simp only [evaluateCode]
  split <;> first | rfl | (split <;> rfl)

/-- Reading `.message` only throws on `null` and `undefined`; on every
other value the property access yields some value. -/
theorem getMessageProp_isSome (v : JSVal) (h1 : v ≠ .null) (h2 : v ≠ .undefined) :
    ∃ mv, getMessageProp v = some mv := by
  cases v <;> simp_all [getMessageProp]

/-! ## Claims -/

/-- C1: for every snippet whose statements are only well-formed
`console.log` calls with primitive (non-object) arguments, `evaluateCode`
resolves with the string obtained by converting each call's arguments to
their textual representation, joining one call's arguments with a single
space and the per-call lines with newlines, in call order; instantiating
with the empty list gives the empty-snippet case, whose transcript is
`""`, not an error. -/
theorem c1_log_only_transcript (L : List (List JSVal)) (w : Int)
    (h : ∀ args ∈ L, ∀ v ∈ args, v.isPrim = true) :
    evaluateCode (.program (L.map fun args => Stmt.call .direct .logK args)) w
      = ⟨.resolved (String.intercalate "\n"
          (L.map fun args => String.intercalate " " (args.map jsString))), 0, [], w⟩ := by
  have hmap : L.map stringifyArgs
      = L.map fun args => String.intercalate " " (args.map jsString) := by
    refine List.map_congr_left fun args hargs => ?h
    unfold stringifyArgs
    exact congrArg _ (List.map_congr_left fun v hv => stringifyArg_prim v (h args hargs v hv))
  simp [evaluateCode, runStmts_map_log, hmap]

/-- Witness for C1 at the specification's own example
`console.log(1); console.log("a","b")` (giving `"1\na b"`) and at the
empty snippet (giving `""`). -/
theorem c1_witness :
    evaluateCode (.program [Stmt.call .direct .logK [.num 1],
        Stmt.call .direct .logK [.str "a", .str "b"]]) 0
      = ⟨.resolved "1\na b", 0, [], 0⟩
    ∧ evaluateCode (.program []) 0 = ⟨.resolved "", 0, [], 0⟩ :=
  ⟨c1_log_only_transcript [[.num 1], [.str "a", .str "b"]] 0 (by decide),
   c1_log_only_transcript [] 0 (by decide)⟩

/-- C2 counterexample: the snippet `throw null;` makes the promise
returned by `evaluateCode` reject rather than resolve with a string — the
catch block's own `error.message` property access throws a `TypeError` on
`null`, escaping the evaluator's boundary.  So the claim that the promise
never rejects is false as stated. -/
theorem c2_counterexample :
    evaluateCode (.program [Stmt.throwJS .null]) 0
      = ⟨.rejectedTypeError .null, 0, [], 0⟩ := rfl

/-- C2 amended: for every snippet whose execution does not abort with the
value `null` or `undefined`, `evaluateCode` resolves with a string that is
either the joined transcript or an `Error: `-prefixed line; when the
thrown value is `null` or `undefined`, reading its `message` property in
the catch block itself throws a `TypeError` and the promise rejects. -/
theorem c2_amended_no_reject (s : Snippet) (w : Int)
    (h : ∀ v, thrownValueOf s w = some v → v ≠ .null ∧ v ≠ .undefined) :
    ∃ r, (evaluateCode s w).settled = .resolved r ∧
      (r = String.intercalate "\n" (transcriptOf s w) ∨ ∃ m, r = "Error: " ++ m) := by
  cases s with
  | syntaxError msg => exact ⟨"Error: " ++ msg, rfl, Or.inr ⟨msg, rfl⟩⟩
  | program stmts =>
    cases hth : (runStmts stmts w).thrown with
    | none =>
      refine ⟨String.intercalate "\n" (runStmts stmts w).transcript, ?h1, Or.inl rfl⟩
      simp [evaluateCode, hth]
    | some v =>
      obtain ⟨hv1, hv2⟩ := h v (by simpa [thrownValueOf] using hth)
      obtain ⟨mv, hmv⟩ := getMessageProp_isSome v hv1 hv2
      refine ⟨"Error: " ++ jsString mv, ?h2, Or.inr ⟨jsString mv, rfl⟩⟩
      simp [evaluateCode, hth, hmv]

/-- Witness for C2's amended theorem at the snippet
`console.log("hi")`, which throws nothing. -/
theorem c2_witness :
    ∃ r, (evaluateCode (.program [Stmt.call .direct .logK [.str "hi"]]) 0).settled
        = .resolved r ∧
      (r = String.intercalate "\n"
          (transcriptOf (.program [Stmt.call .direct .logK [.str "hi"]]) 0)
        ∨ ∃ m, r = "Error: " ++ m) :=
  c2_amended_no_reject (.program [Stmt.call .direct .logK [.str "hi"]]) 0
    (by intro v hv; simp [thrownValueOf, runStmts] at hv)

/-- C3: for every snippet that throws a runtime `Error` with message `M`
after a non-aborting prefix — whether thrown synchronously or surfaced as
rejection of an awaited promise — `evaluateCode` resolves with exactly
`Error: M`, regardless of the transcript lines the prefix logged and of
any statements after the throw. -/
theorem c3_throw_message (pre post : List Stmt) (M : String) (w : Int)
    (h : (runStmts pre w).thrown = none) :
    (evaluateCode (.program (pre ++ Stmt.throwJS (.errObj M) :: post)) w).settled
      = .resolved ("Error: " ++ M)
    ∧ (evaluateCode (.program (pre ++ Stmt.awaitRejected (.errObj M) :: post)) w).settled
      = .resolved ("Error: " ++ M) := by
  constructor
  · simp [evaluateCode, runStmts_append _ _ _ h, runStmts, getMessageProp, jsString]
  · simp [evaluateCode, runStmts_append _ _ _ h, runStmts, getMessageProp, jsString]

/-- Witness for C3 at the snippet
`console.log("before"); throw new Error("boom"); console.log("after")`
(and its awaited-rejection variant), both yielding `Error: boom`. -/
theorem c3_witness :
    (evaluateCode (.program ([Stmt.call .direct .logK [.str "before"]]
        ++ Stmt.throwJS (.errObj "boom") :: [Stmt.call .direct .logK [.str "after"]])) 0).settled
      = .resolved "Error: boom"
    ∧ (evaluateCode (.program ([Stmt.call .direct .logK [.str "before"]]
        ++ Stmt.awaitRejected (.errObj "boom") :: [Stmt.call .direct .logK [.str "after"]])) 0).settled
      = .resolved "Error: boom" :=
  c3_throw_message [Stmt.call .direct .logK [.str "before"]]
    [Stmt.call .direct .logK [.str "after"]] "boom" 0 rfl

/-- C4 counterexample: the rewrite of line 58 is purely textual, so a
snippet that aliases the console (`const c = console; c.log(42)`) is left
unchanged by the rewrite and its output call reaches the real console
(`ambient` is non-empty) while the captured transcript stays empty.  The
claim that a snippet's aliasing of the output primitives cannot escape the
sandbox boundary is false as stated. -/
theorem c4_counterexample :
    rewriteConsoleCalls "const c = console; c.log(42)" = "const c = console; c.log(42)"
    ∧ evaluateCode (.program [Stmt.call .aliased .logK [.num 42]]) 0
      = ⟨.resolved "", 0, [(.logK, [.num 42])], 0⟩ := ⟨by decide, rfl⟩

/-- C4 amended: the evaluator textually rewrites the literal occurrences
of `console.log(` / `console.error(` so they invoke the injected hooks,
and for snippets whose console calls are all written in that literal
direct form nothing reaches the real channel; calls made through an alias
or computed member access are not matched by the rewrite and escape. -/
theorem c4_amended_direct_captured (stmts : List Stmt) (w : Int)
    (h : stmts.all directCallsOnly = true) :
    (evaluateCode (.program stmts) w).ambient = [] := by
  have := runStmts_ambient_nil stmts w h
  simp only [evaluateCode]
  split
  · simpa using this
  · split <;> simpa using this

/-- Witness for C4's amended theorem at the direct-call snippet
`console.log("hi")`. -/
theorem c4_witness :
    (evaluateCode (.program [Stmt.call .direct .logK [.str "hi"]]) 0).ambient = [] :=
  c4_amended_direct_captured [Stmt.call .direct .logK [.str "hi"]] 0 (by decide)

/-- C5: a `console.error` call appends the space-joined stringification of
its arguments prefixed with `Error: ` and does not terminate the run: the
transcript lines of the remaining statements still follow it, and the
whole run still resolves with the joined transcript. -/
theorem c5_error_hook (args : List JSVal) (rest : List Stmt) (w : Int)
    (h : (runStmts rest w).thrown = none) :
    (evaluateCode (.program (Stmt.call .direct .errK args :: rest)) w).settled
      = .resolved (String.intercalate "\n"
          (("Error: " ++ stringifyArgs args) :: (runStmts rest w).transcript)) := by
  simp [evaluateCode, runStmts, h]

/-- Witness for C5 at the snippet
`console.error("oops"); console.log("next")`, whose transcript is
`Error: oops` followed by `next`. -/
theorem c5_witness :
    (evaluateCode (.program [Stmt.call .direct .errK [.str "oops"],
        Stmt.call .direct .logK [.str "next"]]) 0).settled
      = .resolved "Error: oops\nnext" :=
  c5_error_hook [.str "oops"] [Stmt.call .direct .logK [.str "next"]] 0 rfl

/-- C6: for a snippet that awaits a delay of `ms` and then logs, run
between non-aborting statement lists `pre` and `post`, the promise settles
only after the delay (`ms` is a lower bound on the total awaited time) and
the delayed line appears in the transcript exactly between the lines of
`pre` and those of `post`. -/
theorem c6_delay_ordering (pre : List Stmt) (ms : Nat) (args : List JSVal)
    (post : List Stmt) (w : Int)
    (h1 : (runStmts pre w).thrown = none)
    (h2 : (runStmts post (runStmts pre w).world).thrown = none) :
    (evaluateCode (.program
        (pre ++ Stmt.awaitDelayThen ms :: Stmt.call .direct .logK args :: post)) w).settled
      = .resolved (String.intercalate "\n"
          ((runStmts pre w).transcript
            ++ stringifyArgs args :: (runStmts post (runStmts pre w).world).transcript))
    ∧ ms ≤ (evaluateCode (.program
        (pre ++ Stmt.awaitDelayThen ms :: Stmt.call .direct .logK args :: post)) w).elapsed := by
  have hb : runStmts (Stmt.awaitDelayThen ms :: Stmt.call .direct .logK args :: post)
      (runStmts pre w).world
      = ⟨stringifyArgs args :: (runStmts post (runStmts pre w).world).transcript,
         (runStmts post (runStmts pre w).world).ambient,
         (runStmts post (runStmts pre w).world).thrown,
         ms + (runStmts post (runStmts pre w).world).elapsed,
         (runStmts post (runStmts pre w).world).world⟩ := by
    simp [runStmts]
  constructor
  · simp [evaluateCode, runStmts_append _ _ _ h1, hb, h2]
  · simp [evaluateCode, runStmts_append _ _ _ h1, hb, h2]
    omega

/-- Witness for C6 at the snippet
`console.log("a"); await new Promise(r => setTimeout(r, 1000)); console.log("delayed")`:
the transcript is `a` then `delayed` and the run takes at least 1000 ms. -/
theorem c6_witness :
    (evaluateCode (.program ([Stmt.call .direct .logK [.str "a"]]
        ++ Stmt.awaitDelayThen 1000 :: Stmt.call .direct .logK [.str "delayed"] :: [])) 0).settled
      = .resolved "a\ndelayed"
    ∧ 1000 ≤ (evaluateCode (.program ([Stmt.call .direct .logK [.str "a"]]
        ++ Stmt.awaitDelayThen 1000 :: Stmt.call .direct .logK [.str "delayed"] :: [])) 0).elapsed :=
  c6_delay_ordering [Stmt.call .direct .logK [.str "a"]] 1000 [.str "delayed"] [] 0 rfl rfl

/-- C7: for every snippet whose rewritten text fails to parse, `new
Function` throws a `SyntaxError`, the same catch converts it, and
`evaluateCode` resolves (rather than rejecting — the failure is confined
to this run and not fatal to the host) with the non-empty string
`Error: <message>`, which starts with `Error: `. -/
theorem c7_syntax_error (msg : String) (w : Int) :
    evaluateCode (.syntaxError msg) w = ⟨.resolved ("Error: " ++ msg), 0, [], w⟩
    ∧ (∃ rest, "Error: " ++ msg = "Error: " ++ rest)
    ∧ ("Error: " ++ msg) ≠ "" := by
  refine ⟨rfl, ⟨msg, rfl⟩, fun hc => ?hne⟩
  have h7 := congrArg String.length hc
  rw [String.length_append] at h7
  have he : "Error: ".length = 7 := rfl
  have h0 : "".length = 0 := rfl
  rw [he, h0] at h7
  omega

/-- C8: evaluating a snippet that neither reads nor writes shared mutable
external state twice in immediate succession (the second run starting in
the world state the first run left behind) produces identical outcomes:
each invocation starts from a fresh empty transcript buffer and retains
nothing from the previous run. -/
theorem c8_idempotent (s : Snippet) (w : Int) (h : statelessSnippet s = true) :
    evaluateCode s ((evaluateCode s w).world) = evaluateCode s w := by
  cases s with
  | syntaxError msg => rfl
  | program stmts =>
    rw [evaluateCode_world,
        runStmts_world_stateless stmts w (by simpa [statelessSnippet] using h)]

/-- Witness for C8 at the snippet `console.log("hi")`. -/
theorem c8_witness :
    evaluateCode (.program [Stmt.call .direct .logK [.str "hi"]])
        ((evaluateCode (.program [Stmt.call .direct .logK [.str "hi"]]) 0).world)
      = evaluateCode (.program [Stmt.call .direct .logK [.str "hi"]]) 0 :=
  c8_idempotent (.program [Stmt.call .direct .logK [.str "hi"]]) 0 (by decide)

/-- C9 counterexample: `throw undefined` is a throw of a value with no
`message` property, yet `evaluateCode` does not return `Error: undefined`
— the catch block's `error.message` access itself throws on `undefined`
and the promise rejects.  So the claim is false as stated for
`null`/`undefined`. -/
theorem c9_counterexample :
    evaluateCode (.program [Stmt.throwJS .undefined]) 0
      = ⟨.rejectedTypeError .undefined, 0, [], 0⟩ := rfl

/-- C9 amended: for every snippet that throws a value other than `null`
and `undefined` that has no `message` property (a primitive such as
`"boom"` or `42`, or an object without a `message` field), `evaluateCode`
resolves with the literal string `Error: undefined`, because the catch
branch reads the `message` property of whatever was thrown; throwing
`null` or `undefined` instead makes the promise reject. -/
theorem c9_amended_no_message (v : JSVal) (w : Int)
    (h1 : noMessageField v = true) (h2 : v ≠ .null) (h3 : v ≠ .undefined) :
    (evaluateCode (.program [Stmt.throwJS v]) w).settled
      = .resolved "Error: undefined" := by
  cases v with
  | obj fields =>
    simp only [noMessageField, Option.isNone_iff_eq_none] at h1
    simp [evaluateCode, runStmts, getMessageProp, h1, jsString]
  | _ => simp_all [evaluateCode, runStmts, getMessageProp, jsString, noMessageField]

/-- Witness for C9's amended theorem at the snippet `throw "boom"`. -/
theorem c9_witness :
    (evaluateCode (.program [Stmt.throwJS (.str "boom")]) 0).settled
      = .resolved "Error: undefined" :=
  c9_amended_no_message (.str "boom") 0 rfl
    (fun hc => JSVal.noConfusion hc) (fun hc => JSVal.noConfusion hc)

/-- C10: the console-call rewrite is purely textual and also hits
occurrences inside string literals: the snippet
`console.log("console.log(hi)")` is rewritten to
`customConsole.log("customConsole.log(hi)")`, whose string-literal
argument is `customConsole.log(hi)`, so the executed call logs the
transcript line `customConsole.log(hi)` rather than `console.log(hi)`. -/
theorem c10_rewrite_inside_strings :
    rewriteConsoleCalls "console.log(\"console.log(hi)\")"
      = "customConsole.log(\"customConsole.log(hi)\")"
    ∧ logCallArg (rewriteConsoleCalls "console.log(\"console.log(hi)\")")
      = some "customConsole.log(hi)"
    ∧ (evaluateCode (.program [Stmt.call .direct .logK
        [.str "customConsole.log(hi)"]]) 0).settled
      = .resolved "customConsole.log(hi)" :=
  ⟨by decide, by decide, rfl⟩

end InterPrep
